import Mathlib

/-!
Verification development for the trustworthy-model-registry evaluation
engine.  The Python sources under `backend/core/` (url_classifier.py,
handlers/, metrics/, model_evaluator.py) are shallowly embedded below:
pure functions become Lean functions over `List Char` (Python `str`) and
`Rat` (Python `float` arithmetic, modelled exactly), stateful caches
become explicit state passing, fallible calls become `Except Unit`.
-/

set_option maxRecDepth 4096

/-! ## Python string primitives (shared helpers)

These model the exact CPython semantics of the string operations the
sources rely on: `str.lower`, `str.strip`, `str.startswith`, substring
containment (`in`), and `str.split` with and without a maxsplit bound.
-/

/-- Shorthand turning a Lean string literal into the `List Char` we compute on. -/
def cs (s : String) : List Char := s.data

/-- Python `str.lower()` (ASCII case folding suffices for every string the code touches). -/
def pyLower (s : List Char) : List Char := s.map Char.toLower

/-- The character class stripped by Python `str.strip()` with no argument. -/
def pyWs : List Char := [' ', '\t', '\n', '\r', Char.ofNat 11, Char.ofNat 12]

/-- Python `s.lstrip(chars)`. -/
def pyLstrip (chars s : List Char) : List Char := s.dropWhile (fun c => c ∈ chars)

/-- Python `s.rstrip(chars)`. -/
def pyRstrip (chars s : List Char) : List Char :=
  ((s.reverse).dropWhile (fun c => c ∈ chars)).reverse

/-- Python `s.strip(chars)`. -/
def pyStripChars (chars s : List Char) : List Char := pyRstrip chars (pyLstrip chars s)

/-- Python `s.strip()` (whitespace on both ends). -/
def pyStripWs (s : List Char) : List Char := pyStripChars pyWs s

/-- Python `s.startswith(p)` as a decidable list predicate. -/
def isPre : List Char → List Char → Bool
  | [], _ => true
  | _ :: _, [] => false
  | a :: as, b :: bs => if a = b then isPre as bs else false

/-- Python `needle in hay` substring containment. -/
def containsSub (needle : List Char) : List Char → Bool
  | [] => isPre needle []
  | c :: rest => if isPre needle (c :: rest) then true else containsSub needle rest

/-- Splits `s` at the first occurrence of `sep`, returning the piece before
and the remainder after the separator; `none` when `sep` does not occur.
(`sep` is nonempty at every call site, as in the Python sources.) -/
def splitOnceL (sep : List Char) : List Char → Option (List Char × List Char)
  | [] => if isPre sep [] then some ([], []) else none
  | c :: rest =>
    if isPre sep (c :: rest) then some ([], (c :: rest).drop sep.length)
    else
      match splitOnceL sep rest with
      | some (pre, post) => some (c :: pre, post)
      | none => none

/-- Python `s.split(sep, maxsplit)` with a finite maxsplit bound. -/
def pySplitN (sep : List Char) : Nat → List Char → List (List Char)
  | 0, s => [s]
  | n + 1, s =>
    match splitOnceL sep s with
    | none => [s]
    | some (pre, post) => pre :: pySplitN sep n post

/-- Fuel-driven worker for the unbounded `str.split(sep)`. -/
def pySplitGo (sep : List Char) : Nat → List Char → List (List Char)
  | 0, s => [s]
  | fuel + 1, s =>
    match splitOnceL sep s with
    | none => [s]
    | some (pre, post) => pre :: pySplitGo sep fuel post

/-- Python `s.split(sep)` with no maxsplit (the fuel bound is never reached
because every split consumes at least one character of `s`). -/
def pySplitAll (sep s : List Char) : List (List Char) := pySplitGo sep (s.length + 1) s

/-- Python `int(q)` truncation toward zero on an exact rational. -/
def pyIntTrunc (q : Rat) : Int := if 0 ≤ q then ⌊q⌋ else ⌈q⌉

/-! ## URL classifier (`url_classifier.py`)

`classify_url` inspects `urlparse(url).netloc` / `.path`; we embed the
fragment of CPython `urllib.parse.urlparse` that those attributes depend
on: WHATWG whitespace stripping, removal of tab/CR/LF, scheme parsing,
netloc extraction after `//`, fragment/query trimming and params
splitting.  `urlsplit` also raises `ValueError` when the extracted netloc
contains an unbalanced square bracket, and the classifier has no
try/except, so that exception escapes `classify_url`: `urlsplitUnbalanced`
captures the raising condition and `classify_urlE` is the
exception-propagating classifier (`pyUrlparse` / `classify_url` give the
parse and classification on inputs where `urlsplit` returns).  CPython
≥ 3.11 additionally validates a netloc whose brackets are balanced
(`_check_bracketed_host`); that version-dependent path is not embedded,
and no theorem below asserts anything about a netloc containing brackets
beyond the unbalanced-bracket raise common to every version. -/

inductive URLType where
  | MODEL
  | DATASET
  | CODE
  | UNKNOWN
deriving DecidableEq, Repr

/-- Characters the WHATWG url spec strips from both ends (C0 controls and space). -/
def whatwgControlOrSpace (c : Char) : Bool := c.toNat ≤ 32

/-- Characters CPython removes from anywhere in the url (tab, CR, LF). -/
def unsafeUrlChar (c : Char) : Bool := c = '\t' ∨ c = '\r' ∨ c = '\n'

/-- Characters allowed inside a url scheme. -/
def schemeChar (c : Char) : Bool := c.isAlpha ∨ c.isDigit ∨ c = '+' ∨ c = '-' ∨ c = '.'

structure UrlParts where
  scheme : List Char
  netloc : List Char
  path : List Char
deriving DecidableEq, Repr

/-- Scheme step of `urlsplit`: split `s` at the first `:` when the prefix is
a well-formed scheme, returning (scheme lowered, remainder). -/
def urlSchemeSplit (s : List Char) : List Char × List Char :=
  match s.findIdx? (fun c => c = ':') with
  | none => ([], s)
  | some i =>
    if 0 < i ∧ (s.take i).all schemeChar ∧ (s.take 1).all Char.isAlpha then
      (pyLower (s.take i), s.drop (i + 1))
    else ([], s)

/-- Netloc step of `urlsplit`: after a leading `//`, the netloc runs to the
next `/`, `?` or `#`. -/
def urlNetlocSplit (s : List Char) : List Char × List Char :=
  if isPre (cs "//") s then
    let rest := s.drop 2
    let netloc := rest.takeWhile (fun c => ¬ (c = '/' ∨ c = '?' ∨ c = '#'))
    (netloc, rest.drop netloc.length)
  else ([], s)

/-- Drops the part of `s` at and after the first occurrence of `marker`. -/
def urlCut (marker : Char) (s : List Char) : List Char :=
  s.takeWhile (fun c => ¬ c = marker)

/-- Params step of `urlparse`: `;params` is split off the last path segment only. -/
def urlDropParams (s : List Char) : List Char :=
  match (s.reverse).findIdx? (fun c => c = '/') with
  | none =>
    match s.findIdx? (fun c => c = ';') with
    | none => s
    | some i => s.take i
  | some k =>
    let lastSlash := s.length - 1 - k
    match (s.drop lastSlash).findIdx? (fun c => c = ';') with
    | none => s
    | some j => s.take (lastSlash + j)

/-- The fragment of CPython `urlparse` that `classify_url` consumes. -/
def pyUrlparse (url : List Char) : UrlParts :=
  let u0 := pyStripChars (List.filter whatwgControlOrSpace (List.range 33 |>.map Char.ofNat)) url
  let u1 := u0.filter (fun c => ¬ unsafeUrlChar c)
  let (scheme, r1) := urlSchemeSplit u1
  let (netloc, r2) := urlNetlocSplit r1
  let r3 := urlCut '#' r2
  let r4 := urlCut '?' r3
  { scheme := scheme, netloc := netloc, path := urlDropParams r4 }

/-- `URLClassifier.classify_url` from `url_classifier.py`. -/
def classify_url (url : List Char) : URLType :=
  let parsed := pyUrlparse url
  let domain := pyLower parsed.netloc
  let path := pyLower parsed.path
  if containsSub (cs "huggingface.co") domain then
    if containsSub (cs "/datasets/") path then URLType.DATASET else URLType.MODEL
  else if containsSub (cs "github.com") domain then URLType.CODE
  else URLType.UNKNOWN

/-- Whether the extracted netloc contains any square bracket (the inputs on
which CPython's bracket validation is exercised at all). -/
def netlocBrackets (url : List Char) : Bool :=
  decide ('[' ∈ (pyUrlparse url).netloc) || decide (']' ∈ (pyUrlparse url).netloc)

/-- The condition under which `urlsplit` raises
`ValueError("Invalid IPv6 URL")`: a `[` without `]` in the extracted
netloc, or a `]` without `[`. -/
def urlsplitUnbalanced (url : List Char) : Bool :=
  let n := (pyUrlparse url).netloc
  (decide ('[' ∈ n) && ! decide (']' ∈ n)) || (decide (']' ∈ n) && ! decide ('[' ∈ n))

/-- `URLClassifier.classify_url` with the exception path explicit: the
classifier wraps `urlparse` in no try/except, so the unbalanced-bracket
`ValueError` propagates to the caller (`.error`); otherwise the
classification is returned. -/
def classify_urlE (url : List Char) : Except Unit URLType :=
  if urlsplitUnbalanced url then Except.error () else Except.ok (classify_url url)

/-- `URLClassifier.group_urls_by_type`: the urls of one category, in input order. -/
def group_urls_by_type (urls : List (List Char)) (t : URLType) : List (List Char) :=
  urls.filter (fun u => decide (classify_url u = t))

/-! ## License parsing (`handlers/base_resource_handler.py`, `handlers/model_handler.py`) -/

/-- The allow-list consulted by `_parse_license_identifier`. -/
def acceptedLicenseIds : List (List Char) :=
  [cs "mit", cs "mit license",
   cs "apache", cs "apache-2.0", cs "apache 2.0", cs "apache license",
   cs "bsd", cs "bsd-2-clause", cs "bsd-3-clause", cs "bsd license",
   cs "gpl-2.0", cs "gpl-2.0-only", cs "gpl-2.0-or-later", cs "gplv2",
   cs "gpl-3.0", cs "gpl-3.0-only", cs "gpl-3.0-or-later", cs "gplv3",
   cs "lgpl-2.1", cs "lgpl-2.1-only", cs "lgpl-2.1-or-later", cs "lgplv2.1",
   cs "lgpl-3.0", cs "lgpl-3.0-only", cs "lgpl-3.0-or-later", cs "lgplv3",
   cs "cc0", cs "cc0-1.0", cs "creative commons zero",
   cs "unlicense", cs "public domain"]

/-- `BaseResourceHandler._parse_license_identifier`. -/
def parse_license_identifier (license_id : List Char) : Rat :=
  if license_id = [] then 0
  else if pyStripWs (pyLower license_id) ∈ acceptedLicenseIds then 1 else 0

/-- The free-text patterns consulted by `_parse_license_from_text`. -/
def acceptedLicenseText : List (List Char) :=
  [cs "mit license", cs "mit",
   cs "apache license", cs "apache", cs "apache-2.0", cs "apache 2.0",
   cs "bsd license", cs "bsd",
   cs "gpl-2.0", cs "gplv2", cs "gpl v2", cs "gnu general public license version 2",
   cs "lgpl-2.1", cs "lgplv2.1", cs "lgpl v2.1",
   cs "lgpl-3.0", cs "lgplv3", cs "lgpl v3",
   cs "cc0", cs "cc0-1.0", cs "creative commons zero"]

/-- `BaseResourceHandler._parse_license_from_text` (fallback keyword search). -/
def parse_license_from_text (text : List Char) : Rat :=
  if text = [] then 0
  else if acceptedLicenseText.any (fun p => containsSub p (pyLower text)) then 1 else 0

/-- The quote characters stripped off a front-matter license value. -/
def quoteChars : List Char := [Char.ofNat 34, Char.ofNat 39]

/-- The part of a line after the first `:` (the line is guaranteed to contain
one at the call site, because it starts with the text `license:`). -/
def afterColon (line : List Char) : List Char :=
  match splitOnceL (cs ":") line with
  | some (_, post) => post
  | none => []

/-- First stripped line of the front-matter body that starts (case-insensitively)
with the text `license:`. -/
def findLicenseLine (lines : List (List Char)) : Option (List Char) :=
  lines.findSome? (fun l =>
    let l' := pyStripWs l
    if isPre (cs "license:") (pyLower l') then some l' else none)

/-- `ModelHandler._parse_license_from_metadata`: returns `(score, found)`. -/
def parse_license_from_metadata (content : List Char) : Rat × Bool :=
  if isPre (cs "---") content then
    let parts := pySplitN (cs "---") 2 content
    if 2 ≤ parts.length then
      let yaml := pyStripWs (parts.getD 1 [])
      match findLicenseLine (pySplitAll (cs "\n") yaml) with
      | some line =>
        let value := pyStripChars quoteChars (pyStripWs (afterColon line))
        (parse_license_identifier value, true)
      | none => (0, false)
    else (0, false)
  else (0, false)

/-- The pure core of `ModelHandler._get_license_from_local_readme`, applied to
the fetched readme text: front matter first, free-text fallback only when no
front-matter block exists at all. -/
def license_from_readme (content : List Char) : Rat :=
  let pm := parse_license_from_metadata content
  if ¬ pm.2 ∧ ¬ isPre (cs "---") (pyStripWs content) then parse_license_from_text content
  else if ¬ pm.2 then 0
  else pm.1

/-- `ModelHandler._get_license_from_local_readme` over the upstream readme
response: `.error` models a raised exception, otherwise `(status, body)`. -/
def get_license_from_local_readme (resp : Except Unit (Nat × List Char)) : Rat :=
  match resp with
  | .ok (status, txt) => if status = 200 then license_from_readme txt else 0
  | .error _ => 0

/-! ## Hub / code-host handler scoring (`handlers/*.py`)

The JSON metadata the handlers read is embedded field-by-field: each
structure holds exactly the values the Python code extracts with
`api_data.get(...)`, with truthiness of dict/str values carried as a Bool.
An upstream failure yields the empty metadata (`.get` defaults), exactly
as the fetchers return `{}` on any error. -/

structure HfData where
  downloads : Int
  likes : Int
  tags : List (List Char)
  cardDataTruthy : Bool
  descriptionTruthy : Bool
  siblingsCount : Nat
deriving DecidableEq, Repr

/-- The metadata the code reads out of a failed fetch (`{}`). -/
def HfData.empty : HfData := ⟨0, 0, [], false, false, 0⟩

structure GhData where
  hasReadme : Bool
  stars : Int
  updatedAt : List Char
  hasIssues : Bool
  descriptionTruthy : Bool
  hasWiki : Bool
  homepageTruthy : Bool
deriving DecidableEq, Repr

def GhData.empty : GhData := ⟨false, 0, [], false, false, false, false⟩

namespace ModelHandler

/-- `ModelHandler.get_contributor_count` over the hub metadata. -/
def get_contributor_count (d : HfData) : Nat :=
  if d.downloads > 10000 ∨ d.likes > 100 then 10
  else if d.downloads > 1000 ∨ d.likes > 20 then 5
  else if d.downloads > 100 ∨ d.likes > 5 then 2
  else 1

/-- `ModelHandler.get_documentation_score` over the readme response. -/
def get_documentation_score (resp : Except Unit (Nat × List Char)) : Rat :=
  match resp with
  | .ok (status, txt) =>
    if status = 200 then
      min ((if 500 < txt.length then (0.3 : Rat) else 0)
        + (if containsSub (cs "usage") (pyLower txt) then (0.3 : Rat) else 0)
        + (if containsSub (cs "example") (pyLower txt) then (0.2 : Rat) else 0)
        + (if containsSub (cs "training") (pyLower txt) then (0.2 : Rat) else 0)) 1
    else 0
  | .error _ => 0

/-- `ModelHandler.has_performance_benchmarks` over the readme response. -/
def has_performance_benchmarks (resp : Except Unit (Nat × List Char)) : Bool :=
  match resp with
  | .ok (status, txt) =>
    if status = 200 then
      [cs "benchmark", cs "evaluation", cs "performance", cs "score", cs "metric"].any
        (fun k => containsSub k (pyLower txt))
    else false
  | .error _ => false

end ModelHandler

namespace DatasetHandler

/-- `DatasetHandler.get_quality_score` over the hub metadata. -/
def get_quality_score (d : HfData) : Rat :=
  min ((if d.cardDataTruthy then (0.3 : Rat) else 0)
    + (if d.downloads > 1000 then (0.3 : Rat)
       else if d.downloads > 100 then (0.2 : Rat)
       else if d.downloads > 10 then (0.1 : Rat) else 0)
    + (if 2 < d.tags.length then (0.2 : Rat) else 0)
    + (if 1 < d.siblingsCount then (0.2 : Rat) else 0)) 1

/-- `DatasetHandler.get_documentation_score` over the hub metadata. -/
def get_documentation_score (d : HfData) : Rat :=
  min ((if d.cardDataTruthy then (0.5 : Rat) else 0)
    + (if d.descriptionTruthy then (0.3 : Rat) else 0)
    + (if 0 < d.tags.length then (0.2 : Rat) else 0)) 1

/-- `DatasetHandler.has_evaluation_dataset` over the hub metadata. -/
def has_evaluation_dataset (d : HfData) : Bool :=
  cs "evaluation" ∈ d.tags ∨ cs "benchmark" ∈ d.tags

/-- `DatasetHandler.get_contributor_count` over the hub metadata. -/
def get_contributor_count (d : HfData) : Nat :=
  if d.downloads > 10000 then 5
  else if d.downloads > 1000 then 3
  else 1

end DatasetHandler

namespace CodeHandler

/-- `CodeHandler.get_code_quality_score` over the repo metadata.  The recency
check keeps the Python operator precedence:
`(updated_at and '2024' in updated_at) or ('2023' in updated_at)`. -/
def get_code_quality_score (d : GhData) : Rat :=
  min ((if d.hasReadme then (0.3 : Rat) else 0)
    + (if d.stars > 100 then (0.4 : Rat)
       else if d.stars > 10 then (0.3 : Rat)
       else if d.stars > 0 then (0.2 : Rat) else 0)
    + (if (d.updatedAt ≠ [] ∧ containsSub (cs "2024") d.updatedAt)
          ∨ containsSub (cs "2023") d.updatedAt then (0.3 : Rat) else 0)
    + (if d.hasIssues then (0.2 : Rat) else 0)) 1

/-- `CodeHandler.get_documentation_score` over the repo metadata. -/
def get_documentation_score (d : GhData) : Rat :=
  min ((if d.descriptionTruthy then (0.3 : Rat) else 0)
    + (if d.hasReadme then (0.4 : Rat) else 0)
    + (if d.hasWiki then (0.2 : Rat) else 0)
    + (if d.homepageTruthy then (0.1 : Rat) else 0)) 1

/-- `CodeHandler.get_contributor_count` over the contributors endpoint
response: `.ok (status, n)` is an HTTP reply whose JSON body is an array of
length `n`; `.error` is a raised exception.  On HTTP 200 the code returns
`len(contributors)`; every other path returns 1. -/
def get_contributor_count (resp : Except Unit (Nat × Nat)) : Nat :=
  match resp with
  | .ok (status, n) => if status = 200 then n else 1
  | .error _ => 1

/-- `CodeHandler.has_evaluation_code` over the code-search endpoint response
(`.ok (status, total_count)`). -/
def has_evaluation_code (resp : Except Unit (Nat × Nat)) : Bool :=
  match resp with
  | .ok (status, total) => if status = 200 then decide (0 < total) else false
  | .error _ => false

end CodeHandler


/-! ## Per-handle memoization cache (`BaseResourceHandler._cache_get/_cache_set`
with the `get_huggingface_api_data` use site of `ModelHandler`/`DatasetHandler`)

`_cached_data` is a Python dict; the api-data use site reads it with
`cached = self._cache_get('hf_api_data'); if cached: return cached`, i.e. a
*truthiness* test, and stores whatever a 200 response parsed to — including
an empty JSON object.  The upstream is a queue of pending responses, one
consumed per actual fetch; `.error` models a raised request exception. -/

/-- Api payloads for the cache model: a JSON object as a key/value list
(`[]` is the empty object `{}`, which is falsy in Python). -/
abbrev ApiData := List (List Char × Int)

/-- Structural view of an `Except` value, to derive decidable equality. -/
def exceptToSum {ε α : Type} : Except ε α → ε ⊕ α
  | Except.error e => Sum.inl e
  | Except.ok a => Sum.inr a

instance {ε α : Type} [DecidableEq ε] [DecidableEq α] : DecidableEq (Except ε α) := fun a b =>
  decidable_of_iff (exceptToSum a = exceptToSum b)
    (by cases a <;> cases b <;> simp [exceptToSum])

/-- `BaseResourceHandler._cache_get` over the dict state. -/
def cache_get (cache : List (List Char × ApiData)) (key : List Char) : Option ApiData :=
  match cache with
  | [] => none
  | (k, v) :: rest => if k = key then some v else cache_get rest key

/-- `BaseResourceHandler._cache_set` (Python dict assignment: replace or append). -/
def cache_set (cache : List (List Char × ApiData)) (key : List Char) (value : ApiData) :
    List (List Char × ApiData) :=
  match cache with
  | [] => [(key, value)]
  | (k, v) :: rest => if k = key then (key, value) :: rest else (k, v) :: cache_set rest key value

structure HandlerState where
  cache : List (List Char × ApiData)
  pending : List (Except Unit (Nat × ApiData))
deriving DecidableEq, Repr

/-- `get_huggingface_api_data` (identical shape in `ModelHandler` and
`DatasetHandler`): return the cached dict when it is truthy, otherwise fetch;
a 200 response is cached and returned, anything else yields `{}`. -/
def get_huggingface_api_data (st : HandlerState) : ApiData × HandlerState :=
  let fetched : ApiData × HandlerState :=
    match st.pending with
    | [] => ([], st)
    | resp :: rest =>
      match resp with
      | Except.error _ => ([], { st with pending := rest })
      | Except.ok (status, data) =>
        if status = 200 then
          (data, { cache := cache_set st.cache (cs "hf_api_data") data, pending := rest })
        else ([], { st with pending := rest })
  match cache_get st.cache (cs "hf_api_data") with
  | some d => if d ≠ [] then (d, st) else fetched
  | none => fetched

/-! ## Metric layer (`metrics/*.py`) and orchestrator (`model_evaluator.py`)

Metrics consume resource handlers only through their public methods, so a
constructed handler is embedded as the record of its method outcomes
(`Except Unit …`: `.error` models that call raising).  Wall-clock time is
an input: each metric invocation is given its nonnegative elapsed duration
in seconds and reports `int(elapsed * 1000)` exactly as the code computes
its latency.  A score is a float or — for the size metric — a dict. -/

inductive MetricScore where
  | scalar (q : Rat)
  | mapping (m : List (List Char × Rat))
deriving DecidableEq, Repr

/-- The flattening `_calculate_net_score` applies to a dict-shaped score:
the mean of its values (0.0 for an empty dict). -/
def flattenScore : MetricScore → Rat
  | MetricScore.scalar q => q
  | MetricScore.mapping m => if m = [] then 0 else (m.map Prod.snd).sum / m.length

/-- Method outcomes of one constructed `ModelHandler`. -/
structure ModelHB where
  licenseScoreR : Except Unit Rat
  docScoreR : Except Unit Rat
  contribR : Except Unit Int
  sizeMbR : Except Unit Rat
  benchR : Except Unit Bool
deriving DecidableEq, Repr

/-- Method outcomes of one constructed `DatasetHandler`. -/
structure DatasetHB where
  docScoreR : Except Unit Rat
  contribR : Except Unit Int
  qualityR : Except Unit Rat
  evalDsR : Except Unit Bool
deriving DecidableEq, Repr

/-- Method outcomes of one constructed `CodeHandler`. -/
structure CodeHB where
  docScoreR : Except Unit Rat
  contribR : Except Unit Int
  qualityR : Except Unit Rat
  evalCodeR : Except Unit Bool
deriving DecidableEq, Repr

/-- The resource group handed to every metric of one evaluation
(`resources: Dict[URLType, List[handler]]`, absent category = empty list). -/
structure Resources where
  models : List ModelHB
  datasets : List DatasetHB
  codes : List CodeHB
deriving DecidableEq, Repr

def Resources.empty : Resources := ⟨[], [], []⟩

/-- Python `try: return f() except: return d` around one handler call. -/
def exceptD {α : Type} (x : Except Unit α) (d : α) : α :=
  match x with
  | Except.ok v => v
  | Except.error _ => d

/-- Latency as the code computes it: `int((end_time - start_time) * 1000)`. -/
def latencyOf (elapsed : Rat) : Int := pyIntTrunc (elapsed * 1000)

inductive MetricName where
  | license
  | size_score
  | ramp_up_time
  | bus_factor
  | performance_claims
  | dataset_and_code_score
  | dataset_quality
  | code_quality
deriving DecidableEq, Repr

/-- Registry order of `METRIC_CLASSES` in `metrics/metrics.py`. -/
def allMetricNames : List MetricName :=
  [MetricName.license, MetricName.size_score, MetricName.ramp_up_time,
   MetricName.bus_factor, MetricName.performance_claims,
   MetricName.dataset_and_code_score, MetricName.dataset_quality,
   MetricName.code_quality]

/-- `required_url_types()` of each metric class. -/
def required_url_types : MetricName → List URLType
  | MetricName.license => [URLType.MODEL]
  | MetricName.size_score => [URLType.MODEL]
  | MetricName.ramp_up_time => [URLType.MODEL, URLType.DATASET, URLType.CODE]
  | MetricName.bus_factor => [URLType.MODEL, URLType.DATASET, URLType.CODE]
  | MetricName.performance_claims => [URLType.MODEL, URLType.DATASET, URLType.CODE]
  | MetricName.dataset_and_code_score => [URLType.DATASET, URLType.CODE]
  | MetricName.dataset_quality => [URLType.DATASET]
  | MetricName.code_quality => [URLType.CODE]

/-- `LicenseMetric.calculate`: per-resource license scores (errors caught as
0.0), first score or 0.0 when no model is present. -/
def license_calc (r : Resources) (e : Rat) : Except Unit (MetricScore × Int) :=
  let scores := r.models.map (fun m => exceptD m.licenseScoreR 0)
  Except.ok (MetricScore.scalar (scores.headD 0), latencyOf e)

/-- The hardware-compatibility dict `SizeScoreMetric._calculate_hardware_compatibility`
builds from the model size. -/
def sizeHardwareMap (sz : Rat) : List (List Char × Rat) :=
  [(cs "raspberry_pi", if sz < 100 then (1 : Rat) else if sz < 500 then 0.5 else 0),
   (cs "jetson_nano", if sz < 1000 then (1 : Rat) else if sz < 2000 then 0.7 else 0.3),
   (cs "desktop_pc", if sz < 5000 then (1 : Rat) else if sz < 10000 then 0.8 else 0.5),
   (cs "aws_server", if sz < 20000 then (1 : Rat) else 0.9)]

/-- The fixed fallback dict returned when computing the size fails. -/
def sizeFallbackMap : List (List Char × Rat) :=
  [(cs "raspberry_pi", 0), (cs "jetson_nano", 0), (cs "desktop_pc", 0.5), (cs "aws_server", 0.5)]

/-- `SizeScoreMetric.calculate`. -/
def size_score_calc (r : Resources) (e : Rat) : Except Unit (MetricScore × Int) :=
  match r.models with
  | [] => Except.ok (MetricScore.scalar 0, latencyOf e)
  | m :: _ =>
    let d := match m.sizeMbR with
      | Except.ok sz => sizeHardwareMap sz
      | Except.error _ => sizeFallbackMap
    Except.ok (MetricScore.mapping d, latencyOf e)

/-- `RampUpTimeMetric.calculate`: mean documentation score over every handle
present (errors caught as 0.0), 0.0 when none. -/
def ramp_up_time_calc (r : Resources) (e : Rat) : Except Unit (MetricScore × Int) :=
  let ds := r.models.map (fun m => exceptD m.docScoreR 0)
    ++ r.datasets.map (fun d => exceptD d.docScoreR 0)
    ++ r.codes.map (fun c => exceptD c.docScoreR 0)
  let final : Rat := if ds = [] then 0 else ds.sum / ds.length
  Except.ok (MetricScore.scalar final, latencyOf e)

/-- `BusFactorMetric.calculate`: mean contributor count over every handle
present (errors caught as 1), bucketed into a score. -/
def bus_factor_calc (r : Resources) (e : Rat) : Except Unit (MetricScore × Int) :=
  let counts : List Int := r.models.map (fun m => exceptD m.contribR 1)
    ++ r.datasets.map (fun d => exceptD d.contribR 1)
    ++ r.codes.map (fun c => exceptD c.contribR 1)
  let avg : Rat := if counts = [] then 0 else (counts.map (fun n => (n : Rat))).sum / counts.length
  let final : Rat := if 10 ≤ avg then 1 else if 5 ≤ avg then 0.8 else if 2 ≤ avg then 0.5 else 0.2
  Except.ok (MetricScore.scalar final, latencyOf e)

/-- `PerformanceClaimsMetric.calculate`: the three capability probes are
*not* wrapped in try/except, so a raising probe propagates out of the metric. -/
def performance_claims_calc (r : Resources) (e : Rat) : Except Unit (MetricScore × Int) :=
  match (match r.models with | [] => Except.ok false | m :: _ => m.benchR) with
  | Except.error er => Except.error er
  | Except.ok hb =>
    match (match r.codes with | [] => Except.ok false | c :: _ => c.evalCodeR) with
    | Except.error er => Except.error er
    | Except.ok hec =>
      match (match r.datasets with | [] => Except.ok false | d :: _ => d.evalDsR) with
      | Except.error er => Except.error er
      | Except.ok hds =>
        let score : Rat :=
          (if hb then 0.5 else 0) + (if hec then 0.3 else 0) + (if hds then 0.2 else 0)
        Except.ok (MetricScore.scalar (min score 1), latencyOf e)

/-- `DatasetAndCodeScoreMetric.calculate`. -/
def dataset_and_code_calc (r : Resources) (e : Rat) : Except Unit (MetricScore × Int) :=
  let score : Rat := (if r.datasets ≠ [] then 0.6 else 0) + (if r.codes ≠ [] then 0.4 else 0)
  Except.ok (MetricScore.scalar score, latencyOf e)

/-- `DatasetQualityMetric.calculate`. -/
def dataset_quality_calc (r : Resources) (e : Rat) : Except Unit (MetricScore × Int) :=
  match r.datasets with
  | [] => Except.ok (MetricScore.scalar 0, latencyOf e)
  | d :: _ => Except.ok (MetricScore.scalar (exceptD d.qualityR 0), latencyOf e)

/-- `CodeQualityMetric.calculate`. -/
def code_quality_calc (r : Resources) (e : Rat) : Except Unit (MetricScore × Int) :=
  match r.codes with
  | [] => Except.ok (MetricScore.scalar 0, latencyOf e)
  | c :: _ => Except.ok (MetricScore.scalar (exceptD c.qualityR 0), latencyOf e)

/-- Dispatch of `metric.calculate` by registry name. -/
def runMetric : MetricName → Resources → Rat → Except Unit (MetricScore × Int)
  | MetricName.license => license_calc
  | MetricName.size_score => size_score_calc
  | MetricName.ramp_up_time => ramp_up_time_calc
  | MetricName.bus_factor => bus_factor_calc
  | MetricName.performance_claims => performance_claims_calc
  | MetricName.dataset_and_code_score => dataset_and_code_calc
  | MetricName.dataset_quality => dataset_quality_calc
  | MetricName.code_quality => code_quality_calc

/-- `ModelEvaluator._safe_calculate_metric`: any exception inside a metric
computation degrades to `(0.0, 0)`. -/
def safe_calculate_metric (x : Except Unit (MetricScore × Int)) : MetricScore × Int :=
  match x with
  | Except.ok v => v
  | Except.error _ => (MetricScore.scalar 0, 0)

/-- `ModelEvaluator._calculate_metrics_parallel`: every registered metric is
invoked (missing categories already appear as empty lists in `Resources`);
the collected dict is keyed by metric name, so completion order is
irrelevant and we record results in registry order. -/
def calculate_metrics (r : Resources) (elapsed : MetricName → Rat) :
    List (MetricName × (MetricScore × Int)) :=
  allMetricNames.map (fun n => (n, safe_calculate_metric (runMetric n r (elapsed n))))

/-- First value for a key in an association list (a Python dict lookup). -/
def assocFind {β : Type} (l : List (MetricName × β)) (k : MetricName) : Option β :=
  match l with
  | [] => none
  | (k', v) :: rest => if k' = k then some v else assocFind rest k

/-- The fixed weight table of `_calculate_net_score`. -/
def netWeights : List (MetricName × Rat) :=
  [(MetricName.license, 0.2), (MetricName.performance_claims, 0.15),
   (MetricName.ramp_up_time, 0.15), (MetricName.bus_factor, 0.1),
   (MetricName.size_score, 0.1), (MetricName.dataset_and_code_score, 0.1),
   (MetricName.dataset_quality, 0.1), (MetricName.code_quality, 0.1)]

/-- The running `(weighted_sum, total_weight, total_latency)` accumulation of
`_calculate_net_score` over a weight table. -/
def netFold (ws : List (MetricName × Rat))
    (mres : List (MetricName × (MetricScore × Int))) : Rat × Rat × Int :=
  match ws with
  | [] => (0, 0, 0)
  | (n, w) :: rest =>
    let (s, t, l) := netFold rest mres
    match assocFind mres n with
    | some (sc, lat) => (flattenScore sc * w + s, w + t, lat + l)
    | none => (s, t, l)

/-- `ModelEvaluator._calculate_net_score`. -/
def calculate_net_score (mres : List (MetricName × (MetricScore × Int))) : Rat × Int :=
  let (s, t, l) := netFold netWeights mres
  (if 0 < t then s / t else 0, l)

/-! ### Per-model result assembly and batch drive -/

/-- `ModelHandler._extract_model_id`: first two path segments, else `""`. -/
def extract_model_id (url : List Char) : List Char :=
  let path_parts := pySplitAll (cs "/") (pyStripChars (cs "/") (pyUrlparse url).path)
  match path_parts with
  | a :: b :: _ => a ++ '/' :: b
  | _ => []

/-- The hub metadata endpoint a model handler queries. -/
def hf_models_api_url (model_id : List Char) : List Char :=
  cs "https://huggingface.co/api/models/" ++ model_id

/-- Last element of a split (Python `[-1]`; split results are nonempty). -/
def lastD {α : Type} (l : List α) (d : α) : α :=
  match l with
  | [] => d
  | [a] => a
  | _ :: b :: rest => lastD (b :: rest) d

/-- The `name` field `_evaluate_single_model` derives from the model url. -/
def model_display_name (murl : List Char) : List Char :=
  let model_id := extract_model_id murl
  let mid := if model_id = [] then cs "unknown" else model_id
  if containsSub (cs "/") mid then lastD (pySplitAll (cs "/") mid) mid else mid

/-- One Evaluation Result record (the NDJSON object of `_evaluate_single_model`). -/
structure ResultRecord where
  name : List Char
  category : List Char
  net_score : Rat
  net_score_latency : Int
  ramp_up_time : MetricScore
  ramp_up_time_latency : Int
  bus_factor : MetricScore
  bus_factor_latency : Int
  performance_claims : MetricScore
  performance_claims_latency : Int
  license : MetricScore
  license_latency : Int
  size_score : MetricScore
  size_score_latency : Int
  dataset_and_code_score : MetricScore
  dataset_and_code_score_latency : Int
  dataset_quality : MetricScore
  dataset_quality_latency : Int
  code_quality : MetricScore
  code_quality_latency : Int
deriving DecidableEq, Repr

/-- `metric_results.get(name, {}).get("score", default)`. -/
def scoreOf (mres : List (MetricName × (MetricScore × Int))) (n : MetricName)
    (d : MetricScore) : MetricScore :=
  match assocFind mres n with
  | some (sc, _) => sc
  | none => d

/-- `metric_results.get(name, {}).get("latency", 0)`. -/
def latOf (mres : List (MetricName × (MetricScore × Int))) (n : MetricName) : Int :=
  match assocFind mres n with
  | some (_, lat) => lat
  | none => 0

/-- `ModelEvaluator._evaluate_single_model`: the model url contributes only
the `name` field; every metric is computed from the shared resource group. -/
def evaluate_single_model (murl : List Char) (r : Resources)
    (elapsed : MetricName → Rat) : ResultRecord :=
  let mres := calculate_metrics r elapsed
  { name := model_display_name murl
    category := cs "MODEL"
    net_score := (calculate_net_score mres).1
    net_score_latency := (calculate_net_score mres).2
    ramp_up_time := scoreOf mres MetricName.ramp_up_time (MetricScore.scalar 0)
    ramp_up_time_latency := latOf mres MetricName.ramp_up_time
    bus_factor := scoreOf mres MetricName.bus_factor (MetricScore.scalar 0)
    bus_factor_latency := latOf mres MetricName.bus_factor
    performance_claims := scoreOf mres MetricName.performance_claims (MetricScore.scalar 0)
    performance_claims_latency := latOf mres MetricName.performance_claims
    license := scoreOf mres MetricName.license (MetricScore.scalar 0)
    license_latency := latOf mres MetricName.license
    size_score := scoreOf mres MetricName.size_score (MetricScore.mapping [])
    size_score_latency := latOf mres MetricName.size_score
    dataset_and_code_score := scoreOf mres MetricName.dataset_and_code_score (MetricScore.scalar 0)
    dataset_and_code_score_latency := latOf mres MetricName.dataset_and_code_score
    dataset_quality := scoreOf mres MetricName.dataset_quality (MetricScore.scalar 0)
    dataset_quality_latency := latOf mres MetricName.dataset_quality
    code_quality := scoreOf mres MetricName.code_quality (MetricScore.scalar 0)
    code_quality_latency := latOf mres MetricName.code_quality }

/-- Behaviors of the handlers the batch constructs, as a function of the
source url (one evaluation's upstream environment, fixed and deterministic). -/
structure HandlerEnv where
  model : List Char → ModelHB
  dataset : List Char → DatasetHB
  code : List Char → CodeHB

/-- `ModelEvaluator._create_resource_handlers` over one grouped batch
(handler construction is pure url parsing and cannot fail). -/
def create_resource_handlers (urls : List (List Char)) (env : HandlerEnv) : Resources :=
  { models := (group_urls_by_type urls URLType.MODEL).map env.model
    datasets := (group_urls_by_type urls URLType.DATASET).map env.dataset
    codes := (group_urls_by_type urls URLType.CODE).map env.code }

/-- `ModelEvaluator.evaluate_urls`: one result per MODEL url of the batch,
each computed against the batch's shared resource group. -/
def evaluate_urls (urls : List (List Char)) (env : HandlerEnv)
    (elapsed : MetricName → Rat) : List ResultRecord :=
  let resources := create_resource_handlers urls env
  (group_urls_by_type urls URLType.MODEL).map
    (fun murl => evaluate_single_model murl resources elapsed)

/-- One input line: split on commas, strip each token, drop empty ones. -/
def parse_line_urls (line : List Char) : List (List Char) :=
  (pySplitAll (cs ",") line).map pyStripWs |>.filter (fun u => u ≠ [])

/-- `ModelEvaluator.evaluate_from_file`: `none` models a missing or unreadable
file (both `except` arms return `[]`); otherwise each nonblank line is an
independent batch and the per-line results are concatenated. -/
def evaluate_from_file (file : Option (List (List Char))) (env : HandlerEnv)
    (elapsed : MetricName → Rat) : List ResultRecord :=
  match file with
  | none => []
  | some lines =>
    (lines.map (fun l =>
      let line := pyStripWs l
      if line ≠ [] then
        let line_urls := parse_line_urls line
        if line_urls ≠ [] then evaluate_urls line_urls env elapsed else []
      else [])).flatten

/-- `main()`: exit status 1 with no output when no results were generated,
otherwise exit status 0 and one NDJSON record per result. -/
def main_run (file : Option (List (List Char))) (env : HandlerEnv)
    (elapsed : MetricName → Rat) : Int × List ResultRecord :=
  let results := evaluate_from_file file env elapsed
  if results = [] then (1, []) else (0, results)


/-! ## Specification-side definitions

Definitions in this section are written from the specification's wording
(for refinement-style comparison with the source embedding above) or are
derived observables used to state the theorems. -/

/-- Lowercased first nonempty segment of the parsed url path (the
specification's notion of "the path's first segment"). -/
def pathFirstSegment (url : List Char) : List Char :=
  ((pyLower (pyUrlparse url).path).dropWhile (fun c => c = '/')).takeWhile (fun c => ¬ c = '/')

/-- Classifier as claim C5 words it: DATASET exactly when the host contains
the hub domain and the path's *first segment* is the dataset marker. -/
def classifyC5Claim (url : List Char) : URLType :=
  let domain := pyLower (pyUrlparse url).netloc
  if containsSub (cs "huggingface.co") domain then
    if pathFirstSegment url = cs "datasets" then URLType.DATASET else URLType.MODEL
  else if containsSub (cs "github.com") domain then URLType.CODE
  else URLType.UNKNOWN

/-- The host test actually applied: hub domain as substring of the lowercased netloc. -/
def hubHost (url : List Char) : Bool :=
  containsSub (cs "huggingface.co") (pyLower (pyUrlparse url).netloc)

/-- The code-host test actually applied. -/
def ghHost (url : List Char) : Bool :=
  containsSub (cs "github.com") (pyLower (pyUrlparse url).netloc)

/-- The dataset test actually applied: marker substring anywhere in the lowercased path. -/
def dsPathMark (url : List Char) : Bool :=
  containsSub (cs "/datasets/") (pyLower (pyUrlparse url).path)

/-- Contributor-count bucketing as claim C7 words it (inclusive thresholds). -/
def c7ClaimCount (d l : Int) : Nat :=
  if 10000 ≤ d ∨ 100 ≤ l then 10
  else if 1000 ≤ d ∨ 20 ≤ l then 5
  else if 100 ≤ d ∨ 5 ≤ l then 2
  else 1

/-- Contributor-count bucketing with the thresholds the code applies
(strict comparisons): the amended form of claim C7. -/
def c7AmendedCount (d l : Int) : Nat :=
  if 10000 < d ∨ 100 < l then 10
  else if 1000 < d ∨ 20 < l then 5
  else if 100 < d ∨ 5 < l then 2
  else 1

/-- Whether every category a metric requires is empty in the supplied resources. -/
def categoryEmpty (r : Resources) : URLType → Bool
  | URLType.MODEL => r.models.isEmpty
  | URLType.DATASET => r.datasets.isEmpty
  | URLType.CODE => r.codes.isEmpty
  | URLType.UNKNOWN => true

/-- The score §4.3 of the specification documents for a metric none of whose
required resources are present: 0.0 for every metric except bus factor,
whose documented threshold table sends an empty contributor list
(average 0) to 0.2. -/
def absentDefault : MetricName → MetricScore
  | MetricName.bus_factor => MetricScore.scalar 0.2
  | _ => MetricScore.scalar 0

/-- Flattened score a weight-table entry contributes (0 when absent). -/
def lookedFlattened (mres : List (MetricName × (MetricScore × Int))) (n : MetricName) : Rat :=
  match assocFind mres n with
  | some (sc, _) => flattenScore sc
  | none => 0

/-- Latency a weight-table entry contributes (0 when absent). -/
def lookedLatency (mres : List (MetricName × (MetricScore × Int))) (n : MetricName) : Int :=
  match assocFind mres n with
  | some (_, lat) => lat
  | none => 0

/-- The weight-table entries whose metric produced a result. -/
def presentWeights (mres : List (MetricName × (MetricScore × Int))) : List (MetricName × Rat) :=
  netWeights.filter (fun p => (assocFind mres p.1).isSome)

/-- Specification-side weighted sum over the present metrics (dict-shaped
scores flattened to the mean of their values). -/
def specWeightedSum (mres : List (MetricName × (MetricScore × Int))) : Rat :=
  ((presentWeights mres).map (fun p => lookedFlattened mres p.1 * p.2)).sum

/-- Specification-side total weight actually accumulated. -/
def specTotalWeight (mres : List (MetricName × (MetricScore × Int))) : Rat :=
  ((presentWeights mres).map Prod.snd).sum

/-- Specification-side net latency: sum of the contributing metrics' latencies. -/
def specNetLatency (mres : List (MetricName × (MetricScore × Int))) : Int :=
  ((presentWeights mres).map (fun p => lookedLatency mres p.1)).sum

/-- License score of the batch's *first* model handle (what the license
metric actually consumes, whichever model is being scored). -/
def firstModelLicense (urls : List (List Char)) (env : HandlerEnv) : Rat :=
  match group_urls_by_type urls URLType.MODEL with
  | [] => 0
  | u :: _ => exceptD ((env.model u).licenseScoreR) 0

/-- Equality of two Evaluation Results on every field except `name`. -/
def eqExceptName (a b : ResultRecord) : Prop :=
  a.category = b.category
  ∧ a.net_score = b.net_score
  ∧ a.net_score_latency = b.net_score_latency
  ∧ a.ramp_up_time = b.ramp_up_time
  ∧ a.ramp_up_time_latency = b.ramp_up_time_latency
  ∧ a.bus_factor = b.bus_factor
  ∧ a.bus_factor_latency = b.bus_factor_latency
  ∧ a.performance_claims = b.performance_claims
  ∧ a.performance_claims_latency = b.performance_claims_latency
  ∧ a.license = b.license
  ∧ a.license_latency = b.license_latency
  ∧ a.size_score = b.size_score
  ∧ a.size_score_latency = b.size_score_latency
  ∧ a.dataset_and_code_score = b.dataset_and_code_score
  ∧ a.dataset_and_code_score_latency = b.dataset_and_code_score_latency
  ∧ a.dataset_quality = b.dataset_quality
  ∧ a.dataset_quality_latency = b.dataset_quality_latency
  ∧ a.code_quality = b.code_quality
  ∧ a.code_quality_latency = b.code_quality_latency

/-- Number of MODEL urls the per-line batching of `evaluate_from_file`
actually evaluates (one Evaluation Result is emitted for each). -/
def specModelRecordCount : Option (List (List Char)) → Nat
  | none => 0
  | some lines =>
    (lines.map (fun l =>
      let line := pyStripWs l
      if line ≠ [] ∧ parse_line_urls line ≠ [] then
        (group_urls_by_type (parse_line_urls line) URLType.MODEL).length
      else 0)).sum

/-! ### Concrete fixtures used by witness theorems -/

/-- A model handler behavior with integral outcomes (kernel-evaluable). -/
def wMB : ModelHB := ⟨Except.ok 1, Except.ok 1, Except.ok 10, Except.ok 50, Except.ok true⟩

def wDB : DatasetHB := ⟨Except.ok 1, Except.ok 3, Except.ok 1, Except.ok true⟩

def wCB : CodeHB := ⟨Except.ok 0, Except.ok 4, Except.ok 0, Except.ok false⟩

/-- A fixed upstream environment for witness evaluations. -/
def wEnv : HandlerEnv := ⟨fun _ => wMB, fun _ => wDB, fun _ => wCB⟩

/-- Zero elapsed wall-clock time for witness evaluations. -/
def wElapsed : MetricName → Rat := fun _ => 0

/-- A two-model batch (with dataset and code) for the C3 witness. -/
def wUrls : List (List Char) :=
  [cs "https://huggingface.co/google-bert/bert-base-uncased",
   cs "https://huggingface.co/org2/model2",
   cs "https://huggingface.co/datasets/squad",
   cs "https://github.com/org/repo"]

/-- Metric-result fixture for the C1 witness: only two metrics present,
with integral scores. -/
def wMres : List (MetricName × (MetricScore × Int)) :=
  [(MetricName.license, (MetricScore.scalar 1, 7)),
   (MetricName.dataset_quality, (MetricScore.scalar 0, 3))]

/-- Cache-state fixture for the C9 counterexample: two pending 200 responses,
the first carrying the empty JSON object. -/
def c9state0 : HandlerState :=
  ⟨[], [Except.ok (200, []), Except.ok (200, [(cs "downloads", 5)])]⟩

/-- Cache-state fixture for the C9 witness: a truthy cached api payload. -/
def c9cached : HandlerState :=
  ⟨[(cs "hf_api_data", [(cs "downloads", 7)])], [Except.ok (404, [])]⟩

/-! ## Theorems -/

/-- A nonnegative elapsed duration yields a nonnegative integer latency. -/
theorem latencyOf_nonneg {e : Rat} (he : 0 ≤ e) : 0 ≤ latencyOf e := by
  have h1000 : (0 : Rat) ≤ e * 1000 := by positivity
  unfold latencyOf pyIntTrunc
  rw [if_pos h1000]
  exact Int.floor_nonneg.mpr h1000

/-- C5: the claim's classification rule disagrees with the code in two
ways.  The code classifies by *substring* membership of `/datasets/` in the
path: `https://huggingface.co/a/datasets/b` (first segment `a`) comes out
DATASET where the claim requires MODEL, and `https://huggingface.co/datasets`
(first segment `datasets`) comes out MODEL where the claim requires
DATASET.  And a malformed URL with an unbalanced bracket in its netloc
makes the classifier raise `ValueError` out of `urlparse` instead of the
UNKNOWN the claim requires. -/
theorem classify_url_c5_counterexample :
    classify_url (cs "https://huggingface.co/a/datasets/b") = URLType.DATASET
    ∧ classifyC5Claim (cs "https://huggingface.co/a/datasets/b") = URLType.MODEL
    ∧ classify_url (cs "https://huggingface.co/datasets") = URLType.MODEL
    ∧ classifyC5Claim (cs "https://huggingface.co/datasets") = URLType.DATASET
    ∧ classify_urlE (cs "https://[x") = Except.error () := by
  decide

/-- C5 (amended): a URL whose extracted netloc holds an unbalanced square
bracket makes the classifier raise (`.error`, the `ValueError` escaping
`urlparse`); for every URL whose netloc is free of square brackets the
classifier returns DATASET exactly when the host contains the hub domain
and the lowercased path contains `/datasets/` as a substring, MODEL for
any other hub-host url, CODE when the host instead contains the
code-hosting domain, and UNKNOWN otherwise (other malformed urls
included) — and the claim's four concrete examples hold. -/
theorem classify_url_c5_amended :
    (∀ url, urlsplitUnbalanced url = true → classify_urlE url = Except.error ())
    ∧ (∀ url, netlocBrackets url = false →
        (classify_urlE url = Except.ok URLType.DATASET
          ↔ (hubHost url = true ∧ dsPathMark url = true))
        ∧ (classify_urlE url = Except.ok URLType.MODEL
          ↔ (hubHost url = true ∧ dsPathMark url = false))
        ∧ (classify_urlE url = Except.ok URLType.CODE
          ↔ (hubHost url = false ∧ ghHost url = true))
        ∧ (classify_urlE url = Except.ok URLType.UNKNOWN
          ↔ (hubHost url = false ∧ ghHost url = false)))
    ∧ classify_urlE (cs "https://huggingface.co/bert-base-uncased") = Except.ok URLType.MODEL
    ∧ classify_urlE (cs "https://huggingface.co/datasets/squad") = Except.ok URLType.DATASET
    ∧ classify_urlE (cs "https://github.com/org/repo") = Except.ok URLType.CODE
    ∧ classify_urlE (cs "https://example.com/x") = Except.ok URLType.UNKNOWN
    ∧ classify_urlE (cs "https://[x") = Except.error () := by
  refine ⟨?_, ?_, by decide, by decide, by decide, by decide, by decide⟩
  · intro url h
    simp [classify_urlE, h]
  · intro url hb
    have hnb : ¬ ('[' ∈ (pyUrlparse url).netloc) ∧ ¬ (']' ∈ (pyUrlparse url).netloc) := by
      constructor <;> intro hmem <;> simp [netlocBrackets, hmem] at hb
    have hok : classify_urlE url = Except.ok (classify_url url) := by
      simp [classify_urlE, urlsplitUnbalanced, hnb.1, hnb.2]
    rw [hok]
    simp only [Except.ok.injEq]
    by_cases h1 : containsSub (cs "huggingface.co") (pyLower (pyUrlparse url).netloc) = true <;>
    by_cases h2 : containsSub (cs "/datasets/") (pyLower (pyUrlparse url).path) = true <;>
    by_cases h3 : containsSub (cs "github.com") (pyLower (pyUrlparse url).netloc) = true <;>
    simp [classify_url, hubHost, dsPathMark, ghHost, h1, h2, h3]

theorem classify_url_c5_witness :
    classify_urlE (cs "https://[x") = Except.error ()
    ∧ (classify_urlE (cs "https://example.com/x") = Except.ok URLType.UNKNOWN
        ↔ (hubHost (cs "https://example.com/x") = false
            ∧ ghHost (cs "https://example.com/x") = false)) :=
  ⟨classify_url_c5_amended.1 (cs "https://[x") (by decide),
   (classify_url_c5_amended.2.1 (cs "https://example.com/x") (by decide)).2.2.2⟩

/-- C6: the claim `contributor_count() ≥ 1` fails for the code handler: an
HTTP 200 contributors response whose JSON array is empty makes
`CodeHandler.get_contributor_count` return `len(contributors) = 0`. -/
theorem code_contributor_count_c6_counterexample :
    CodeHandler.get_contributor_count (Except.ok (200, 0)) = 0 := by
  decide

/-- C6 (amended): the model and dataset handlers' contributor counts are
always ≥ 1; the code handler returns the contributor-list length on an
HTTP 200 response (which may be 0) and the conservative default 1 on any
raised error or non-200 status; and failed fetches degrade the scoring
methods to their conservative defaults (0.0 for quality/documentation
scores) instead of raising. -/
theorem resource_handler_failsoft_c6_amended :
    ∀ (hf : HfData) (resp : Except Unit (Nat × Nat)) (respL : Except Unit (Nat × List Char)),
    1 ≤ ModelHandler.get_contributor_count hf
    ∧ 1 ≤ DatasetHandler.get_contributor_count hf
    ∧ (∀ er, resp = Except.error er → CodeHandler.get_contributor_count resp = 1)
    ∧ (∀ s n, resp = Except.ok (s, n) → s ≠ 200 → CodeHandler.get_contributor_count resp = 1)
    ∧ (∀ s n, resp = Except.ok (s, n) → s = 200 → CodeHandler.get_contributor_count resp = n)
    ∧ (∀ er, respL = Except.error er →
        ModelHandler.get_documentation_score respL = 0
        ∧ get_license_from_local_readme respL = 0)
    ∧ DatasetHandler.get_quality_score HfData.empty = 0
    ∧ DatasetHandler.get_documentation_score HfData.empty = 0
    ∧ CodeHandler.get_code_quality_score GhData.empty = 0
    ∧ CodeHandler.get_documentation_score GhData.empty = 0 := by
  intro hf resp respL
  refine ⟨?_, ?_, ?_, ?_, ?_, ?_, ?_, ?_, ?_, ?_⟩
  · unfold ModelHandler.get_contributor_count
    split
    · decide
    split
    · decide
    split <;> decide
  · unfold DatasetHandler.get_contributor_count
    split
    · decide
    split <;> decide
  · intro er h; rw [h]; rfl
  · intro s n h hs; rw [h]
    simp [CodeHandler.get_contributor_count, hs]
  · intro s n h hs; rw [h]
    simp [CodeHandler.get_contributor_count, hs]
  · intro er h; rw [h]
    exact ⟨rfl, rfl⟩
  · norm_num [DatasetHandler.get_quality_score, HfData.empty]
  · norm_num [DatasetHandler.get_documentation_score, HfData.empty]
  · norm_num [CodeHandler.get_code_quality_score, GhData.empty, containsSub, isPre]
  · norm_num [CodeHandler.get_documentation_score, GhData.empty]

theorem resource_handler_failsoft_c6_witness :
    1 ≤ ModelHandler.get_contributor_count HfData.empty
    ∧ CodeHandler.get_contributor_count (Except.error ()) = 1
    ∧ CodeHandler.get_contributor_count (Except.ok (404, 9)) = 1 :=
  ⟨(resource_handler_failsoft_c6_amended HfData.empty (Except.error ()) (Except.error ())).1,
   (resource_handler_failsoft_c6_amended HfData.empty (Except.error ()) (Except.error ())).2.2.1 () rfl,
   (resource_handler_failsoft_c6_amended HfData.empty (Except.ok (404, 9)) (Except.error ())).2.2.2.1
     404 9 rfl (by decide)⟩

/-- C7: the claim's thresholds are inclusive (≥) but the code compares
strictly: at exactly 10000 downloads the handler returns 5, not the 10 the
claim requires. -/
theorem model_contributor_count_c7_counterexample :
    ModelHandler.get_contributor_count ⟨10000, 0, [], false, false, 0⟩ = 5
    ∧ c7ClaimCount 10000 0 = 10 := by
  decide

/-- C7 (amended): for every hub metadata payload the model handler's
contributor count is the strict-threshold bucketing of its download and
like counts (> 10000 downloads or > 100 likes → 10; > 1000 / > 20 → 5;
> 100 / > 5 → 2; else 1). -/
theorem model_contributor_count_c7_amended :
    ∀ hf : HfData, ModelHandler.get_contributor_count hf = c7AmendedCount hf.downloads hf.likes := by
  intro hf
  rfl

/-- C9: the stored cache value *is* replaced when it is falsy: caching the
empty JSON object `{}` from one 200 response leaves the truthiness guard
false, so the next read refetches and overwrites the stored value. -/
theorem cache_replaced_c9_counterexample :
    cache_get (get_huggingface_api_data c9state0).2.cache (cs "hf_api_data") = some []
    ∧ cache_get (get_huggingface_api_data (get_huggingface_api_data c9state0).2).2.cache
        (cs "hf_api_data") = some [(cs "downloads", 5)] := by
  decide

/-- C9 (amended): once a *truthy* (non-empty) value has been set for the
api-data key, every later read returns the stored value verbatim and
leaves the handler state — cache included — unchanged, so the value is
never replaced or invalidated; an empty stored value is bypassed by the
truthiness guard and may be overwritten by a later fetch. -/
theorem cache_verbatim_c9_amended :
    ∀ (st : HandlerState) (v : ApiData),
    cache_get st.cache (cs "hf_api_data") = some v → v ≠ [] →
    get_huggingface_api_data st = (v, st) := by
  intro st v h hv
  unfold get_huggingface_api_data
  rw [h]
  simp [hv]

theorem cache_verbatim_c9_witness :
    get_huggingface_api_data c9cached = ([(cs "downloads", 7)], c9cached) :=
  cache_verbatim_c9_amended c9cached [(cs "downloads", 7)] (by decide) (by decide)

/-- C10: a model url whose path has fewer than two segments yields the
empty model id, hence hub lookups against the bare endpoint url, and the
emitted Evaluation Result's name is the literal `unknown`. -/
theorem model_id_unknown_c10 :
    ∀ (murl : List Char) (r : Resources) (elapsed : MetricName → Rat),
    (pySplitAll (cs "/") (pyStripChars (cs "/") (pyUrlparse murl).path)).length < 2 →
    extract_model_id murl = []
    ∧ (evaluate_single_model murl r elapsed).name = cs "unknown"
    ∧ hf_models_api_url (extract_model_id murl) = cs "https://huggingface.co/api/models/" := by
  intro murl r elapsed h
  have hid : extract_model_id murl = [] := by
    unfold extract_model_id
    cases hp : pySplitAll (cs "/") (pyStripChars (cs "/") (pyUrlparse murl).path) with
    | nil => rfl
    | cons a t =>
      cases t with
      | nil => rfl
      | cons b t2 =>
        rw [hp] at h
        simp at h
        omega
  have hname : model_display_name murl = cs "unknown" := by
    simp only [model_display_name, hid]
    decide
  refine ⟨hid, ?_, ?_⟩
  · simp only [evaluate_single_model]
    exact hname
  · rw [hid]
    decide

theorem model_id_unknown_c10_witness :
    extract_model_id (cs "https://huggingface.co/bert-base-uncased") = []
    ∧ (evaluate_single_model (cs "https://huggingface.co/bert-base-uncased")
        Resources.empty wElapsed).name = cs "unknown"
    ∧ hf_models_api_url (extract_model_id (cs "https://huggingface.co/bert-base-uncased"))
        = cs "https://huggingface.co/api/models/" :=
  model_id_unknown_c10 (cs "https://huggingface.co/bert-base-uncased")
    Resources.empty wElapsed (by decide)

/-- `isPre` agrees with the library prefix test. -/
theorem isPre_eq_isPrefixOf (p s : List Char) : isPre p s = p.isPrefixOf s := by
  induction p generalizing s with
  | nil => cases s <;> rfl
  | cons a as ih =>
    cases s with
    | nil => rfl
    | cons b t =>
      simp only [isPre, List.isPrefixOf, ih]
      by_cases hab : a = b
      · simp [hab]
      · simp [hab, Bool.and_eq_true, beq_iff_eq]

/-- A successful `isPre` test decomposes the string. -/
theorem isPre_append (p s : List Char) (h : isPre p s = true) : ∃ t, s = p ++ t := by
  rw [isPre_eq_isPrefixOf] at h
  obtain ⟨t, ht⟩ := List.isPrefixOf_iff_prefix.mp h
  exact ⟨t, ht.symm⟩

/-- `dropWhile` over an append, by cases on whether the first part is consumed. -/
theorem dropWhile_append_cases (p : Char → Bool) (xs ys : List Char) :
    List.dropWhile p (xs ++ ys)
      = if (List.dropWhile p xs).isEmpty then List.dropWhile p ys
        else List.dropWhile p xs ++ ys := by
  induction xs with
  | nil => simp
  | cons a t ih =>
    by_cases h : p a
    · simpa [List.dropWhile_cons, h] using ih
    · simp [List.dropWhile_cons, h]

/-- Whitespace stripping preserves a leading `---` marker (its characters are
not whitespace, so neither end of the strip can consume them). -/
theorem isPre_dashes_stripWs (s : List Char) (h : isPre (cs "---") s = true) :
    isPre (cs "---") (pyStripWs s) = true := by
  obtain ⟨t, rfl⟩ := isPre_append _ _ h
  have hsep : cs "---" = ['-', '-', '-'] := rfl
  rw [hsep]
  have hl : pyLstrip pyWs (['-', '-', '-'] ++ t) = ['-', '-', '-'] ++ t := rfl
  unfold pyStripWs pyStripChars
  rw [hl]
  unfold pyRstrip
  rw [List.reverse_append, dropWhile_append_cases]
  by_cases he : (List.dropWhile (fun c => decide (c ∈ pyWs)) t.reverse).isEmpty
  · rw [if_pos he]
    decide
  · rw [if_neg he]
    rw [List.reverse_append]
    rfl

/-- C4: front matter rules the license score.  A front-matter block with
`license: mit` scores 1.0 whatever the body holds; a front-matter block
whose parse finds no license field scores 0.0 with no free-text fallback
(even when the body names an accepted license); and only a readme with no
front-matter block at all falls back to the case-insensitive free-text
search. -/
theorem license_front_matter_c4 :
    (∀ body, license_from_readme (cs "---\nlicense: mit\n---\n" ++ body) = 1)
    ∧ (∀ content, isPre (cs "---") content = true →
        (parse_license_from_metadata content).2 = false →
        license_from_readme content = 0)
    ∧ (∀ content, isPre (cs "---") (pyStripWs content) = false →
        license_from_readme content = parse_license_from_text content)
    ∧ license_from_readme (cs "---\ntags: x\n---\nMIT License") = 0
    ∧ parse_license_from_text (cs "MIT License") = 1 := by
  refine ⟨?_, ?_, ?_, by decide, by decide⟩
  · intro body
    have h0 : isPre (cs "---") (cs "---\nlicense: mit\n---\n" ++ body) = true := rfl
    have h1 : pySplitN (cs "---") 2 (cs "---\nlicense: mit\n---\n" ++ body)
        = [[], cs "\nlicense: mit\n", '\n' :: body] := rfl
    have hm : parse_license_from_metadata (cs "---\nlicense: mit\n---\n" ++ body) = (1, true) := by
      rw [parse_license_from_metadata, h0, if_pos rfl, h1]
      have hlen : (2 : Nat) ≤ [[], cs "\nlicense: mit\n", '\n' :: body].length := by simp
      rw [if_pos hlen]
      have hg : [[], cs "\nlicense: mit\n", '\n' :: body].getD 1 [] = cs "\nlicense: mit\n" := rfl
      rw [hg]
      decide
    simp [license_from_readme, hm]
  · intro content h1 h2
    have hstrip := isPre_dashes_stripWs content h1
    simp [license_from_readme, h2, hstrip]
  · intro content h
    have hpre : isPre (cs "---") content = false := by
      by_contra hc
      rw [Bool.not_eq_false] at hc
      rw [isPre_dashes_stripWs content hc] at h
      cases h
    have hmeta : parse_license_from_metadata content = (0, false) := by
      simp [parse_license_from_metadata, hpre]
    simp [license_from_readme, hmeta, h]

theorem license_front_matter_c4_witness :
    license_from_readme (cs "---\nlicense: mit\n---\n" ++ cs "any body, even GPL text") = 1
    ∧ license_from_readme (cs "---\ntags: x\n---\nMIT License") = 0
    ∧ license_from_readme (cs "plain readme citing the MIT license")
        = parse_license_from_text (cs "plain readme citing the MIT license") :=
  ⟨license_front_matter_c4.1 (cs "any body, even GPL text"),
   license_front_matter_c4.2.1 (cs "---\ntags: x\n---\nMIT License") (by decide) (by decide),
   license_front_matter_c4.2.2.1 (cs "plain readme citing the MIT license") (by decide)⟩

/-- Every successful metric invocation reports the latency of its own
wall-clock duration, `int(elapsed * 1000)`. -/
theorem runMetric_ok_latency (n : MetricName) (r : Resources) (e : Rat)
    (v : MetricScore × Int) (h : runMetric n r e = Except.ok v) : v.2 = latencyOf e := by
  cases n with
  | license =>
    simp [runMetric, license_calc] at h
    rw [← h]
  | size_score =>
    cases hm : r.models with
    | nil => simp [runMetric, size_score_calc, hm] at h; rw [← h]
    | cons m ms => simp [runMetric, size_score_calc, hm] at h; rw [← h]
  | ramp_up_time =>
    simp [runMetric, ramp_up_time_calc] at h
    rw [← h]
  | bus_factor =>
    simp [runMetric, bus_factor_calc] at h
    rw [← h]
  | performance_claims =>
    simp only [runMetric, performance_claims_calc] at h
    cases h1 : (match r.models with | [] => Except.ok false | m :: _ => m.benchR) with
    | error er => rw [h1] at h; cases h
    | ok hb =>
      rw [h1] at h
      cases h2 : (match r.codes with | [] => Except.ok false | c :: _ => c.evalCodeR) with
      | error er => rw [h2] at h; cases h
      | ok hec =>
        rw [h2] at h
        cases h3 : (match r.datasets with | [] => Except.ok false | d :: _ => d.evalDsR) with
        | error er => rw [h3] at h; cases h
        | ok hds => rw [h3] at h; cases h; rfl
  | dataset_and_code_score =>
    simp [runMetric, dataset_and_code_calc] at h
    rw [← h]
  | dataset_quality =>
    cases hd : r.datasets with
    | nil => simp [runMetric, dataset_quality_calc, hd] at h; rw [← h]
    | cons d ds => simp [runMetric, dataset_quality_calc, hd] at h; rw [← h]
  | code_quality =>
    cases hc : r.codes with
    | nil => simp [runMetric, code_quality_calc, hc] at h; rw [← h]
    | cons c ccs => simp [runMetric, code_quality_calc, hc] at h; rw [← h]

/-- C2: invoking any registered metric through the orchestrator never
propagates an exception — a failing computation is recorded as score 0.0
with latency 0; every recorded latency is an integer ≥ 0; a metric all of
whose required categories are empty returns its documented zero/fallback
score; and the size metric returns its fixed fallback mapping when
computing the size fails. -/
theorem metric_failsoft_c2 :
    ∀ (n : MetricName) (r : Resources) (e : Rat), 0 ≤ e →
    (runMetric n r e = Except.error () →
      safe_calculate_metric (runMetric n r e) = (MetricScore.scalar 0, 0))
    ∧ 0 ≤ (safe_calculate_metric (runMetric n r e)).2
    ∧ ((required_url_types n).all (categoryEmpty r) = true →
        (safe_calculate_metric (runMetric n r e)).1 = absentDefault n)
    ∧ (∀ m ms, r.models = m :: ms → m.sizeMbR = Except.error () →
        safe_calculate_metric (runMetric MetricName.size_score r e)
          = (MetricScore.mapping sizeFallbackMap, latencyOf e)) := by
  intro n r e he
  refine ⟨?_, ?_, ?_, ?_⟩
  · intro h
    rw [h]
    rfl
  · cases hrn : runMetric n r e with
    | error er => simp [safe_calculate_metric]
    | ok v =>
      show 0 ≤ v.2
      rw [runMetric_ok_latency n r e v hrn]
      exact latencyOf_nonneg he
  · intro hall
    cases n with
    | license =>
      simp only [required_url_types, List.all_cons, List.all_nil, Bool.and_true,
        Bool.and_eq_true, categoryEmpty, List.isEmpty_iff] at hall
      norm_num [runMetric, license_calc, hall, safe_calculate_metric, absentDefault]
    | size_score =>
      simp only [required_url_types, List.all_cons, List.all_nil, Bool.and_true,
        Bool.and_eq_true, categoryEmpty, List.isEmpty_iff] at hall
      norm_num [runMetric, size_score_calc, hall, safe_calculate_metric, absentDefault]
    | ramp_up_time =>
      simp only [required_url_types, List.all_cons, List.all_nil, Bool.and_true,
        Bool.and_eq_true, categoryEmpty, List.isEmpty_iff] at hall
      obtain ⟨h1, h2, h3⟩ := hall
      norm_num [runMetric, ramp_up_time_calc, h1, h2, h3, safe_calculate_metric, absentDefault]
    | bus_factor =>
      simp only [required_url_types, List.all_cons, List.all_nil, Bool.and_true,
        Bool.and_eq_true, categoryEmpty, List.isEmpty_iff] at hall
      obtain ⟨h1, h2, h3⟩ := hall
      norm_num [runMetric, bus_factor_calc, h1, h2, h3, safe_calculate_metric, absentDefault]
    | performance_claims =>
      simp only [required_url_types, List.all_cons, List.all_nil, Bool.and_true,
        Bool.and_eq_true, categoryEmpty, List.isEmpty_iff] at hall
      obtain ⟨h1, h2, h3⟩ := hall
      norm_num [runMetric, performance_claims_calc, h1, h2, h3,
        safe_calculate_metric, absentDefault]
    | dataset_and_code_score =>
      simp only [required_url_types, List.all_cons, List.all_nil, Bool.and_true,
        Bool.and_eq_true, categoryEmpty, List.isEmpty_iff] at hall
      obtain ⟨h1, h2⟩ := hall
      norm_num [runMetric, dataset_and_code_calc, h1, h2, safe_calculate_metric, absentDefault]
    | dataset_quality =>
      simp only [required_url_types, List.all_cons, List.all_nil, Bool.and_true,
        Bool.and_eq_true, categoryEmpty, List.isEmpty_iff] at hall
      norm_num [runMetric, dataset_quality_calc, hall, safe_calculate_metric, absentDefault]
    | code_quality =>
      simp only [required_url_types, List.all_cons, List.all_nil, Bool.and_true,
        Bool.and_eq_true, categoryEmpty, List.isEmpty_iff] at hall
      norm_num [runMetric, code_quality_calc, hall, safe_calculate_metric, absentDefault]
  · intro m ms hm hz
    simp [runMetric, size_score_calc, hm, hz, safe_calculate_metric]

theorem metric_failsoft_c2_witness :
    (safe_calculate_metric (runMetric MetricName.bus_factor Resources.empty 0)).1
      = absentDefault MetricName.bus_factor
    ∧ 0 ≤ (safe_calculate_metric (runMetric MetricName.license Resources.empty 0)).2 :=
  ⟨(metric_failsoft_c2 MetricName.bus_factor Resources.empty 0 (by decide)).2.2.1 (by decide),
   (metric_failsoft_c2 MetricName.license Resources.empty 0 (by decide)).2.1⟩

/-- A successful association-list lookup is a membership. -/
theorem assocFind_mem {β : Type} (l : List (MetricName × β)) (k : MetricName) (v : β)
    (h : assocFind l k = some v) : (k, v) ∈ l := by
  induction l with
  | nil => cases h
  | cons p rest ih =>
    obtain ⟨k', v'⟩ := p
    by_cases hk : k' = k
    · subst hk
      simp [assocFind] at h
      subst h
      exact List.mem_cons_self _ _
    · simp [assocFind, hk] at h
      exact List.mem_cons_of_mem _ (ih h)

/-- The running accumulation of `_calculate_net_score` computes the three
sums over the weight-table entries whose metric is present. -/
theorem netFold_eq (ws : List (MetricName × Rat)) (mres : List (MetricName × (MetricScore × Int))) :
    netFold ws mres =
      (((ws.filter (fun p => (assocFind mres p.1).isSome)).map
          (fun p => lookedFlattened mres p.1 * p.2)).sum,
       ((ws.filter (fun p => (assocFind mres p.1).isSome)).map Prod.snd).sum,
       ((ws.filter (fun p => (assocFind mres p.1).isSome)).map
          (fun p => lookedLatency mres p.1)).sum) := by
  induction ws with
  | nil => rfl
  | cons p rest ih =>
    obtain ⟨n, w⟩ := p
    cases hf : assocFind mres n with
    | none =>
      simp [netFold, ih, hf, List.filter_cons]
    | some v =>
      obtain ⟨sc, lat⟩ := v
      simp [netFold, ih, hf, List.filter_cons, lookedFlattened, lookedLatency]

/-- With every present flattened score in `[0,1]` and nonnegative weights,
the weighted sum is nonnegative and bounded by the total weight. -/
theorem netFold_bounds (ws : List (MetricName × Rat))
    (mres : List (MetricName × (MetricScore × Int)))
    (hw : ∀ p ∈ ws, 0 ≤ p.2)
    (hs : ∀ p ∈ mres, 0 ≤ flattenScore p.2.1 ∧ flattenScore p.2.1 ≤ 1) :
    0 ≤ (netFold ws mres).1 ∧ (netFold ws mres).1 ≤ (netFold ws mres).2.1
    ∧ 0 ≤ (netFold ws mres).2.1 := by
  induction ws with
  | nil => norm_num [netFold]
  | cons p rest ih =>
    obtain ⟨n, w⟩ := p
    have hw0 : 0 ≤ w := hw (n, w) (List.mem_cons_self _ _)
    have ihh := ih (fun q hq => hw q (List.mem_cons_of_mem _ hq))
    cases hf : assocFind mres n with
    | none =>
      simpa [netFold, hf] using ihh
    | some v =>
      obtain ⟨sc, lat⟩ := v
      have hb := hs (n, (sc, lat)) (assocFind_mem mres n (sc, lat) hf)
      simp only [netFold, hf]
      refine ⟨add_nonneg (mul_nonneg hb.1 hw0) ihh.1, ?_, add_nonneg hw0 ihh.2.2⟩
      exact add_le_add (mul_le_of_le_one_left hw0 hb.2) ihh.2.1

/-- Every weight of the fixed table is positive. -/
theorem netWeights_pos : ∀ p ∈ netWeights, 0 < p.2 := by
  intro p hp
  fin_cases hp <;> norm_num

/-- A nonempty list of entries with positive weights has positive weight sum. -/
theorem sum_snd_pos (l : List (MetricName × Rat)) (hpos : ∀ p ∈ l, 0 < p.2) (hne : l ≠ []) :
    0 < (l.map Prod.snd).sum := by
  cases l with
  | nil => exact absurd rfl hne
  | cons p rest =>
    have h0 : 0 < p.2 := hpos p (List.mem_cons_self _ _)
    have hr : 0 ≤ (rest.map Prod.snd).sum := by
      apply List.sum_nonneg
      intro x hx
      obtain ⟨q, hq, rfl⟩ := List.mem_map.mp hx
      exact le_of_lt (hpos q (List.mem_cons_of_mem _ hq))
    rw [List.map_cons, List.sum_cons]
    exact add_pos_of_pos_of_nonneg h0 hr

/-- C1: the net score is the weighted sum of the flattened scores of the
metrics actually present, renormalized by the accumulated weight (0.0 when
no weighted metric is present); it lies in `[0,1]` whenever the present
flattened scores do; and the net latency is the exact sum of the
contributing metrics' latencies. -/
theorem net_score_c1 :
    ∀ (mres : List (MetricName × (MetricScore × Int))),
    (∀ p ∈ mres, 0 ≤ flattenScore p.2.1 ∧ flattenScore p.2.1 ≤ 1) →
    (calculate_net_score mres).2 = specNetLatency mres
    ∧ (presentWeights mres = [] → (calculate_net_score mres).1 = 0)
    ∧ (presentWeights mres ≠ [] →
        (calculate_net_score mres).1 = specWeightedSum mres / specTotalWeight mres)
    ∧ 0 ≤ (calculate_net_score mres).1 ∧ (calculate_net_score mres).1 ≤ 1 := by
  intro mres hs
  have hfold := netFold_eq netWeights mres
  have hbounds := netFold_bounds netWeights mres
    (fun p hp => le_of_lt (netWeights_pos p hp)) hs
  rw [hfold] at hbounds
  have hcalc : calculate_net_score mres
      = (if 0 < specTotalWeight mres then specWeightedSum mres / specTotalWeight mres else 0,
         specNetLatency mres) := by
    unfold calculate_net_score
    rw [hfold]
    rfl
  rw [hcalc]
  have hb1 : 0 ≤ specWeightedSum mres := hbounds.1
  have hb2 : specWeightedSum mres ≤ specTotalWeight mres := hbounds.2.1
  have hb3 : 0 ≤ specTotalWeight mres := hbounds.2.2
  refine ⟨rfl, ?_, ?_, ?_, ?_⟩
  · intro hempty
    have ht : specTotalWeight mres = 0 := by
      unfold specTotalWeight
      rw [hempty]
      rfl
    simp [ht]
  · intro hne
    have ht : 0 < specTotalWeight mres :=
      sum_snd_pos (presentWeights mres)
        (fun p hp => netWeights_pos p (List.mem_of_mem_filter hp)) hne
    simp [ht]
  · by_cases ht : 0 < specTotalWeight mres
    · simp only [ht, if_true]
      exact div_nonneg hb1 hb3
    · simp [ht]
  · by_cases ht : 0 < specTotalWeight mres
    · simp only [ht, if_true]
      exact (div_le_one ht).mpr hb2
    · simp [ht]

theorem net_score_c1_witness :
    0 ≤ (calculate_net_score wMres).1 ∧ (calculate_net_score wMres).1 ≤ 1
    ∧ (calculate_net_score wMres).2 = specNetLatency wMres :=
  ⟨(net_score_c1 wMres (by decide)).2.2.2.1,
   (net_score_c1 wMres (by decide)).2.2.2.2,
   (net_score_c1 wMres (by decide)).1⟩

/-- Two per-model evaluations over the same resource group agree on every
field except `name`: the scored model's own url reaches nothing else. -/
theorem evaluate_single_model_fields (u1 u2 : List Char) (r : Resources)
    (e : MetricName → Rat) :
    eqExceptName (evaluate_single_model u1 r e) (evaluate_single_model u2 r e) :=
  ⟨rfl, rfl, rfl, rfl, rfl, rfl, rfl, rfl, rfl, rfl, rfl, rfl, rfl, rfl, rfl, rfl, rfl, rfl, rfl⟩

/-- C3: in a batch with more than one MODEL url, every emitted Evaluation
Result is identical to every other in all fields except its own name, and
each result's license score is the one computed from the *first* model
handle constructed for the batch — never the handle of the model currently
being scored. -/
theorem first_model_handle_c3 :
    ∀ (urls : List (List Char)) (env : HandlerEnv) (elapsed : MetricName → Rat),
    2 ≤ (group_urls_by_type urls URLType.MODEL).length →
    (∀ a ∈ evaluate_urls urls env elapsed, ∀ b ∈ evaluate_urls urls env elapsed,
      eqExceptName a b)
    ∧ (∀ rec ∈ evaluate_urls urls env elapsed,
        rec.license = MetricScore.scalar (firstModelLicense urls env)) := by
  intro urls env elapsed h2
  constructor
  · intro a ha b hb
    simp only [evaluate_urls] at ha hb
    obtain ⟨ua, hua, rfl⟩ := List.mem_map.mp ha
    obtain ⟨ub, hub, rfl⟩ := List.mem_map.mp hb
    exact evaluate_single_model_fields ua ub _ elapsed
  · intro rec hrec
    obtain ⟨u0, rest, hg⟩ : ∃ u0 rest, group_urls_by_type urls URLType.MODEL = u0 :: rest := by
      cases hgl : group_urls_by_type urls URLType.MODEL with
      | nil => rw [hgl] at h2; simp at h2
      | cons a l => exact ⟨a, l, rfl⟩
    simp only [evaluate_urls] at hrec
    obtain ⟨u, hu, rfl⟩ := List.mem_map.mp hrec
    simp only [evaluate_single_model, scoreOf, calculate_metrics, allMetricNames,
      List.map_cons, assocFind, if_pos]
    simp only [runMetric, license_calc, safe_calculate_metric]
    simp [create_resource_handlers, hg, firstModelLicense]

theorem first_model_handle_c3_witness :
    eqExceptName
      (evaluate_single_model (cs "https://huggingface.co/google-bert/bert-base-uncased")
        (create_resource_handlers wUrls wEnv) wElapsed)
      (evaluate_single_model (cs "https://huggingface.co/org2/model2")
        (create_resource_handlers wUrls wEnv) wElapsed) := by
  have hg : group_urls_by_type wUrls URLType.MODEL
      = [cs "https://huggingface.co/google-bert/bert-base-uncased",
         cs "https://huggingface.co/org2/model2"] := by decide
  refine (first_model_handle_c3 wUrls wEnv wElapsed (by decide)).1 _ ?_ _ ?_
  · simp only [evaluate_urls, hg, List.map_cons]
    exact List.mem_cons_self _ _
  · simp only [evaluate_urls, hg, List.map_cons]
    exact List.mem_cons_of_mem _ (List.mem_cons_self _ _)

/-- C8: a missing or unreadable input file surfaces as an empty result list
and a non-zero exit; zero results exit non-zero with no output; otherwise
the process exits zero emitting the results — and the result list holds
exactly one record per evaluated MODEL url. -/
theorem exit_contract_c8 :
    ∀ (file : Option (List (List Char))) (env : HandlerEnv) (elapsed : MetricName → Rat),
    (file = none → evaluate_from_file file env elapsed = [] ∧ (main_run file env elapsed).1 = 1)
    ∧ (evaluate_from_file file env elapsed = [] →
        (main_run file env elapsed).1 = 1 ∧ (main_run file env elapsed).2 = [])
    ∧ (evaluate_from_file file env elapsed ≠ [] →
        (main_run file env elapsed).1 = 0
        ∧ (main_run file env elapsed).2 = evaluate_from_file file env elapsed)
    ∧ (evaluate_from_file file env elapsed).length = specModelRecordCount file := by
  intro file env elapsed
  refine ⟨?_, ?_, ?_, ?_⟩
  · intro h
    subst h
    exact ⟨rfl, rfl⟩
  · intro h
    simp [main_run, h]
  · intro h
    simp [main_run, h]
  · cases file with
    | none => rfl
    | some lines =>
      simp only [evaluate_from_file, specModelRecordCount]
      induction lines with
      | nil => rfl
      | cons l ls ih =>
        simp only [List.map_cons, List.flatten_cons, List.length_append, List.sum_cons]
        rw [ih]
        congr 1
        by_cases h1 : pyStripWs l ≠ []
        · by_cases hu : parse_line_urls (pyStripWs l) ≠ []
          · simp [h1, hu, evaluate_urls]
          · simp [h1, hu]
        · simp [h1]

theorem exit_contract_c8_witness :
    evaluate_from_file none wEnv wElapsed = []
    ∧ (main_run none wEnv wElapsed).1 = 1
    ∧ (main_run (some [cs "https://huggingface.co/a/b"]) wEnv wElapsed).1 = 0
    ∧ (evaluate_from_file (some [cs "https://huggingface.co/a/b"]) wEnv wElapsed).length
        = specModelRecordCount (some [cs "https://huggingface.co/a/b"]) := by
  have hne : evaluate_from_file (some [cs "https://huggingface.co/a/b"]) wEnv wElapsed ≠ [] := by
    have h1 : pyStripWs (cs "https://huggingface.co/a/b") = cs "https://huggingface.co/a/b" := by
      decide
    have h2 : parse_line_urls (cs "https://huggingface.co/a/b")
        = [cs "https://huggingface.co/a/b"] := by decide
    have hg : group_urls_by_type [cs "https://huggingface.co/a/b"] URLType.MODEL
        = [cs "https://huggingface.co/a/b"] := by decide
    simp [evaluate_from_file, h1, h2, evaluate_urls, hg]
    decide
  exact ⟨((exit_contract_c8 none wEnv wElapsed).1 rfl).1,
    ((exit_contract_c8 none wEnv wElapsed).1 rfl).2,
    ((exit_contract_c8 (some [cs "https://huggingface.co/a/b"]) wEnv wElapsed).2.2.1 hne).1,
    (exit_contract_c8 (some [cs "https://huggingface.co/a/b"]) wEnv wElapsed).2.2.2⟩
